import Mathlib

/-!
Verification of the streaming flight-delay aggregation core
(`analysis/generate_flight_delay_report.py`).

The embedding below translates the pipeline's pure core:
  - `normalize_flag`, `safe_divide`, `determine_available_columns`
  - `preprocess_chunk` (chunk normalization)
  - `build_agg_spec`/groupby aggregation (`aggRows`, `groupby`)
  - `update_table`, `update_overall`, `new_stats`
  - `finalize_table`, `enrich_metrics`

Python floats are modelled as exact rationals (ℚ); the pandas missing
value NaN is modelled by `Option` at the cell level and by an explicit
`GF.nan` constructor for grouped partial-aggregate values.  Python dicts
keyed by group tuples are association lists. CSV cells are modelled at
the parse level: a date cell carries `Option Date` (the outcome of
`pd.to_datetime(..., errors="coerce")`), a numeric cell `Option ℚ`
(outcome of `pd.to_numeric(..., errors="coerce")`).
-/

namespace FlightDelay

/-- Python dict lookup on an association list. -/
def alook {α β : Type} [DecidableEq α] : List (α × β) → α → Option β
  | [], _ => none
  | (k, v) :: rest, k' => if k' = k then some v else alook rest k'

/-- A parsed calendar date (outcome of a successful `pd.to_datetime`). -/
structure Date where
  y : Int
  m : Nat
  d : Nat
deriving DecidableEq

/-- One raw cell of a boolean-like flag column (CANCELLED / DIVERTED),
before `normalize_flag`.  `fb` models a cell of a bool-dtyped column,
`fnum` a cell that `pd.to_numeric` coerces to a number, `ftext` a cell
that does not coerce, `fna` a missing cell. -/
inductive FlagCell where
  | fb (b : Bool)
  | fnum (q : ℚ)
  | ftext (s : String)
  | fna
deriving DecidableEq

/-- `pd.to_numeric(cell, errors="coerce")`: bools are numeric (True→1),
numbers stay, text that does not parse and missing become NaN (`none`). -/
def to_numericCell : FlagCell → Option ℚ
  | .fb b => some (if b then 1 else 0)
  | .fnum q => some q
  | .ftext _ => none
  | .fna => none

/-- Python `int()` / numpy `astype("int64")` on a float: truncation toward
zero. -/
def pyInt (q : ℚ) : Int := q.num.tdiv q.den

/-- Whether a cell belongs to a bool-dtyped series
(`pd.api.types.is_bool_dtype` holds for a column exactly when every cell
is a bool). -/
def FlagCell.isFb : FlagCell → Bool
  | .fb _ => true
  | _ => false

/-- The positive text encodings recognized by `normalize_flag`. -/
def positiveFlagTokens : List String := ["Y", "YES", "TRUE", "T", "1"]

/-- pandas `.str.strip().str.upper()`: drop leading and trailing
whitespace, then upper-case every character. -/
def pyStripUpper (s : String) : String :=
  String.mk
    ((((s.data.dropWhile Char.isWhitespace).reverse.dropWhile
      Char.isWhitespace).reverse).map Char.toUpper)

/-- The bool-dtype branch of `normalize_flag`: `series.astype("int64")`. -/
def boolFlagVal : FlagCell → Int
  | .fb b => if b then 1 else 0
  | _ => 0

/-- The numeric branch of `normalize_flag`:
`pd.to_numeric(series, errors="coerce").fillna(0).astype("int64")`. -/
def numFlagVal (c : FlagCell) : Int :=
  match to_numericCell c with
  | some q => pyInt q
  | none => 0

/-- The text branch of `normalize_flag`: strip/upper the string form and
map the recognized positive tokens to 1, everything else to 0. -/
def textFlagVal : FlagCell → Int
  | .ftext t => if positiveFlagTokens.contains (pyStripUpper t) then 1 else 0
  | .fb b => if b then 1 else 0
  | _ => 0

/-- `normalize_flag` (source lines 132-148).  Column-level normalization
of a cancelled/diverted series to int64 0/1 values:
  - empty series → empty int series;
  - bool dtype → direct cast;
  - else, if ANY value coerces to numeric → numeric coercion of the whole
    series, NaN filled with 0, truncated to int64;
  - else → string path: strip/upper, map the recognized positive tokens
    to 1, everything else (including the string form of NaN) to 0. -/
def normalize_flag (s : List FlagCell) : List Int :=
  if s.isEmpty then []
  else if s.all FlagCell.isFb then s.map boolFlagVal
  else if s.any (fun c => (to_numericCell c).isSome) then s.map numFlagVal
  else s.map textFlagVal

/-- `safe_divide` (source lines 151-153): the denominator 0 is replaced by
NaN (`none`) before dividing, so a zero denominator yields the missing
value instead of an error or an infinity. -/
def safe_divide (n d : ℚ) : Option ℚ :=
  if d = 0 then none else some (n / d)

/-! ### Column resolution (`determine_available_columns`, lines 156-169) -/

/-- `COLUMN_ALIASES` (source lines 23-49). -/
def COLUMN_ALIASES : List (String × List String) :=
  [("FL_DATE", ["FL_DATE", "FlightDate"]),
   ("OP_CARRIER",
     ["OP_CARRIER", "IATA_Code_Marketing_Airline", "Marketing_Airline_Network",
      "IATA_Code_Operating_Airline", "Operating_Airline", "Operating_Airline "]),
   ("OP_UNIQUE_CARRIER",
     ["OP_UNIQUE_CARRIER", "DOT_ID_Marketing_Airline", "DOT_ID_Operating_Airline"]),
   ("ORIGIN", ["ORIGIN", "Origin"]),
   ("DEST", ["DEST", "Dest"]),
   ("ARR_DELAY", ["ARR_DELAY", "ArrDelay", "ArrDelayMinutes"]),
   ("DEP_DELAY", ["DEP_DELAY", "DepDelay", "DepDelayMinutes"]),
   ("CANCELLED", ["CANCELLED", "Cancelled"]),
   ("DIVERTED", ["DIVERTED", "Diverted"]),
   ("CARRIER_DELAY", ["CARRIER_DELAY", "CarrierDelay"]),
   ("WEATHER_DELAY", ["WEATHER_DELAY", "WeatherDelay"]),
   ("NAS_DELAY", ["NAS_DELAY", "NASDelay"]),
   ("SECURITY_DELAY", ["SECURITY_DELAY", "SecurityDelay"]),
   ("LATE_AIRCRAFT_DELAY", ["LATE_AIRCRAFT_DELAY", "LateAircraftDelay"])]

/-- `DESIRED_COLUMNS` (source lines 83-93). -/
def DESIRED_COLUMNS : List String :=
  ["FL_DATE", "OP_CARRIER", "OP_UNIQUE_CARRIER", "ORIGIN", "DEST",
   "ARR_DELAY", "DEP_DELAY", "CANCELLED", "DIVERTED",
   "CARRIER_DELAY", "WEATHER_DELAY", "NAS_DELAY", "SECURITY_DELAY",
   "LATE_AIRCRAFT_DELAY"]

/-- `COLUMN_ALIASES.get(canonical, [canonical])`. -/
def aliasesOf (canonical : String) : List String :=
  (alook COLUMN_ALIASES canonical).getD [canonical]

/-- The `column_map` loop of `determine_available_columns`: for each
canonical field, the first alias present in the header is recorded;
fields with no present alias are simply left out of the map. -/
def buildColumnMap : List String → List String → List (String × String)
  | [], _ => []
  | canonical :: rest, columns =>
    match (aliasesOf canonical).find? (fun a => columns.contains a) with
    | some a => (canonical, a) :: buildColumnMap rest columns
    | none => buildColumnMap rest columns

/-- `determine_available_columns` (source lines 156-169) restricted to its
pure schema-resolution content: the header is the list of column names,
the result is the canonical→source map, and the `SchemaError`
(`ValueError("FL_DATE column not found ...")`) is the `Except.error`
case, raised when the mandatory date field resolved to no alias. -/
def determine_available_columns (columns : List String) :
    Except String (List (String × String)) :=
  let column_map := buildColumnMap DESIRED_COLUMNS columns
  if (alook column_map "FL_DATE").isSome then
    Except.ok column_map
  else
    Except.error "FL_DATE column not found"

/-! ### Chunks and normalization (`preprocess_chunk`, lines 172-191) -/

/-- Which canonical columns the current file exposes (the survivors of
column resolution; `chunk.columns` membership tests in the source). -/
structure Meta where
  hasCarrier : Bool
  hasOrigin : Bool
  hasDest : Bool
  hasArr : Bool
  hasDep : Bool
  hasCancelled : Bool
  hasDiverted : Bool
  hasCauseCarrier : Bool
  hasCauseWeather : Bool
  hasCauseNas : Bool
  hasCauseSecurity : Bool
  hasCauseLate : Bool
deriving DecidableEq

/-- The five delay-cause cells of one raw row, each the outcome of
`pd.to_numeric(..., errors="coerce")` (`none` = NaN / missing). -/
structure CauseVals where
  cc : Option ℚ
  cw : Option ℚ
  cn : Option ℚ
  cs : Option ℚ
  cl : Option ℚ
deriving DecidableEq

/-- One raw row of a chunk, already renamed to canonical column names.
Numeric cells are carried at the parse level (`none` = failed to parse /
missing), the date cell as the outcome of `pd.to_datetime`. -/
structure Row where
  fl_date : Option Date
  carrier : String
  origin : String
  dest : String
  arr_delay : Option ℚ
  dep_delay : Option ℚ
  cancelled : FlagCell
  diverted : FlagCell
  causes : CauseVals
deriving DecidableEq

/-- A raw chunk: its rows plus the column-presence flags of the file. -/
structure Chunk where
  meta : Meta
  rows : List Row
deriving DecidableEq

/-- One normalized row (a row of the frame `preprocess_chunk` returns).
Fields of columns the file does not expose carry a default and are never
read by the aggregation (the agg spec is gated on `Meta`). -/
structure NRow where
  month : Int × Nat
  carrier : String
  origin : String
  dest : String
  arr_delay : Option ℚ
  arr_over15 : Int
  dep_delay : Option ℚ
  dep_over15 : Int
  cancelled : Int
  diverted : Int
  cc : ℚ
  cw : ℚ
  cn : ℚ
  cs : ℚ
  cl : ℚ
deriving DecidableEq

/-- A normalized chunk. -/
structure NChunk where
  meta : Meta
  rows : List NRow
deriving DecidableEq

/-- The rows surviving `dropna(subset=["FL_DATE"])`: those whose date
parsed. -/
def kept (c : Chunk) : List Row :=
  c.rows.filter (fun r => r.fl_date.isSome)

/-- The over-15-minutes indicator column: `(series > 15).astype("int64")`.
pandas comparison with NaN yields False, so a missing delay contributes
indicator 0. Strict greater-than. -/
def over15Ind (v : Option ℚ) : Int :=
  match v with
  | some q => if 15 < q then 1 else 0
  | none => 0

/-- The normalized CANCELLED column of a chunk (after the date filter):
`normalize_flag` applied column-wise when the column is present. When
the column is absent the source never creates it; the placeholder zeros
here are never read because the agg spec is gated on `Meta`. -/
def cancColumn (c : Chunk) : List Int :=
  if c.meta.hasCancelled then normalize_flag ((kept c).map (fun r => r.cancelled))
  else (kept c).map (fun _ => 0)

/-- The normalized DIVERTED column, as `cancColumn`. -/
def divColumn (c : Chunk) : List Int :=
  if c.meta.hasDiverted then normalize_flag ((kept c).map (fun r => r.diverted))
  else (kept c).map (fun _ => 0)

/-- Assembling one normalized row from a surviving raw row and its
normalized flag cells:
  - `month` is the calendar month of the parsed date (`dt.to_period("M")`);
  - delays keep their parse-level value (missing stays missing);
  - the over-15 indicators use the strict `> 15` comparison;
  - delay-cause cells are `fillna(0.0)`: missing becomes 0. -/
def mkNRow (r : Row) (cz dz : Int) : NRow :=
  { month := ((r.fl_date.getD ⟨0, 0, 0⟩).y, (r.fl_date.getD ⟨0, 0, 0⟩).m)
    carrier := r.carrier
    origin := r.origin
    dest := r.dest
    arr_delay := r.arr_delay
    arr_over15 := over15Ind r.arr_delay
    dep_delay := r.dep_delay
    dep_over15 := over15Ind r.dep_delay
    cancelled := cz
    diverted := dz
    cc := r.causes.cc.getD 0
    cw := r.causes.cw.getD 0
    cn := r.causes.cn.getD 0
    cs := r.causes.cs.getD 0
    cl := r.causes.cl.getD 0 }

/-- Row-aligned combination of the three columns (the frame keeps its
rows aligned across columns). -/
def zipWith3 {α β γ δ : Type} (f : α → β → γ → δ) :
    List α → List β → List γ → List δ
  | a :: as, b :: bs, c :: cs => f a b c :: zipWith3 f as bs cs
  | _, _, _ => []

/-- `preprocess_chunk` (source lines 172-191): parse dates, drop rows
whose date failed to parse, derive the month key, coerce delays (already
parse-level here), derive strict over-15 indicators, normalize flags
column-wise, default missing delay-cause minutes to 0.0. -/
def preprocess_chunk (c : Chunk) : NChunk :=
  { meta := c.meta
    rows := zipWith3 mkNRow (kept c) (cancColumn c) (divColumn c) }

/-! ### Metric records and the additive merge (`new_stats`, `update_table`) -/

/-- One Metric Record (one value of the `defaultdict(new_stats)` tables):
exactly the fixed `METRIC_FIELDS` set — count fields as Python ints,
sum fields as Python floats (exact rationals here). -/
structure Stats where
  flights : Int
  arr_delay_sum : ℚ
  arr_delay_count : Int
  arr_delay_over_15 : Int
  dep_delay_sum : ℚ
  dep_delay_count : Int
  dep_delay_over_15 : Int
  cancelled : Int
  diverted : Int
  carrier_delay_sum : ℚ
  weather_delay_sum : ℚ
  nas_delay_sum : ℚ
  security_delay_sum : ℚ
  late_aircraft_delay_sum : ℚ
deriving DecidableEq

/-- `new_stats` (source lines 125-129): every metric field zero — `0.0`
for sum fields, `0` for count fields. -/
def new_stats : Stats :=
  { flights := 0, arr_delay_sum := 0, arr_delay_count := 0, arr_delay_over_15 := 0
    dep_delay_sum := 0, dep_delay_count := 0, dep_delay_over_15 := 0
    cancelled := 0, diverted := 0
    carrier_delay_sum := 0, weather_delay_sum := 0, nas_delay_sum := 0
    security_delay_sum := 0, late_aircraft_delay_sum := 0 }

/-- One cell of a grouped partial-aggregate row: the column may be
absent from the agg spec (`absent`), hold NaN (`nan`, skipped by the
merge), or hold an int64 or float64 value. -/
inductive GF where
  | absent
  | nan
  | iv (n : Int)
  | fv (q : ℚ)
deriving DecidableEq

/-- One row of a grouped per-batch partial aggregate (`grouped.iterrows()`
row). `flights` (from the `size` aggregation) is always present and
never NaN. -/
structure PRow where
  flights : Int
  arr_delay_sum : GF
  arr_delay_count : GF
  arr_delay_over_15 : GF
  dep_delay_sum : GF
  dep_delay_count : GF
  dep_delay_over_15 : GF
  cancelled : GF
  diverted : GF
  carrier_delay_sum : GF
  weather_delay_sum : GF
  nas_delay_sum : GF
  security_delay_sum : GF
  late_aircraft_delay_sum : GF
deriving DecidableEq

/-- Merge of one partial value into a sum field:
`stats[field] += float(value)`. Absent columns are not iterated;
NaN values are skipped by the `pd.isna` guard (source line 236). -/
def addSumF (v : ℚ) : GF → ℚ
  | .fv q => v + q
  | .iv n => v + (n : ℚ)
  | _ => v

/-- Merge of one partial value into a count field:
`stats[field] += int(value)` (truncating). Absent columns are not
iterated; NaN values are skipped by the `pd.isna` guard. -/
def addCntF (v : Int) : GF → Int
  | .iv n => v + n
  | .fv q => v + pyInt q
  | _ => v

/-- The body of the `update_table` loop for one grouped row
(source lines 228-241): `flights` added unconditionally, every other
present non-NaN column added elementwise — float addition for sum
fields, int addition for count fields. -/
def applyRow (s : Stats) (p : PRow) : Stats :=
  { flights := s.flights + p.flights
    arr_delay_sum := addSumF s.arr_delay_sum p.arr_delay_sum
    arr_delay_count := addCntF s.arr_delay_count p.arr_delay_count
    arr_delay_over_15 := addCntF s.arr_delay_over_15 p.arr_delay_over_15
    dep_delay_sum := addSumF s.dep_delay_sum p.dep_delay_sum
    dep_delay_count := addCntF s.dep_delay_count p.dep_delay_count
    dep_delay_over_15 := addCntF s.dep_delay_over_15 p.dep_delay_over_15
    cancelled := addCntF s.cancelled p.cancelled
    diverted := addCntF s.diverted p.diverted
    carrier_delay_sum := addSumF s.carrier_delay_sum p.carrier_delay_sum
    weather_delay_sum := addSumF s.weather_delay_sum p.weather_delay_sum
    nas_delay_sum := addSumF s.nas_delay_sum p.nas_delay_sum
    security_delay_sum := addSumF s.security_delay_sum p.security_delay_sum
    late_aircraft_delay_sum := addSumF s.late_aircraft_delay_sum p.late_aircraft_delay_sum }

/-- One component of a group key (a month period or a string code). -/
inductive KeyPart where
  | s (v : String)
  | ym (y : Int) (m : Nat)
deriving DecidableEq

/-- A group key: the tuple `key_tuple` of `update_table`. -/
abbrev Key := List KeyPart

/-- A running Aggregation Table: Python's `defaultdict(new_stats)` keyed
by group tuples, as an association list. -/
abbrev Table := List (Key × Stats)

/-- Python dict assignment `table[key] = stats` (update in place if the
key exists, append otherwise). -/
def tableInsert (t : Table) (k : Key) (s : Stats) : Table :=
  if (alook t k).isSome then
    t.map (fun p => if p.1 = k then (k, s) else p)
  else
    t ++ [(k, s)]

/-- `update_table` (source lines 222-241): for each grouped row,
fetch the record for its key (the `defaultdict` materializes `new_stats`
for a new key) and merge the partial into it elementwise. -/
def update_table (t : Table) (g : List (Key × PRow)) : Table :=
  g.foldl
    (fun acc kp =>
      tableInsert acc kp.1 (applyRow ((alook acc kp.1).getD new_stats) kp.2))
    t

/-! ### Per-batch grouped aggregation (`build_agg_spec` + `groupby(...).agg`) -/

/-- The per-key partial aggregate produced by
`chunk.groupby(keys).agg(**build_agg_spec(chunk))` for one group's rows:
`flights` is the group size; each other metric is present exactly when
its source column is (source lines 194-219); sums are pandas `skipna`
sums (missing values contribute nothing), counts count the non-missing
values. -/
def aggRows (m : Meta) (rows : List NRow) : PRow :=
  { flights := (rows.length : Int)
    arr_delay_sum :=
      if m.hasArr then .fv ((rows.map (fun r => r.arr_delay.getD 0)).sum) else .absent
    arr_delay_count :=
      if m.hasArr then .iv ((rows.filter (fun r => r.arr_delay.isSome)).length : Int)
      else .absent
    arr_delay_over_15 :=
      if m.hasArr then .iv ((rows.map (fun r => r.arr_over15)).sum) else .absent
    dep_delay_sum :=
      if m.hasDep then .fv ((rows.map (fun r => r.dep_delay.getD 0)).sum) else .absent
    dep_delay_count :=
      if m.hasDep then .iv ((rows.filter (fun r => r.dep_delay.isSome)).length : Int)
      else .absent
    dep_delay_over_15 :=
      if m.hasDep then .iv ((rows.map (fun r => r.dep_over15)).sum) else .absent
    cancelled :=
      if m.hasCancelled then .iv ((rows.map (fun r => r.cancelled)).sum) else .absent
    diverted :=
      if m.hasDiverted then .iv ((rows.map (fun r => r.diverted)).sum) else .absent
    carrier_delay_sum :=
      if m.hasCauseCarrier then .fv ((rows.map (fun r => r.cc)).sum) else .absent
    weather_delay_sum :=
      if m.hasCauseWeather then .fv ((rows.map (fun r => r.cw)).sum) else .absent
    nas_delay_sum :=
      if m.hasCauseNas then .fv ((rows.map (fun r => r.cn)).sum) else .absent
    security_delay_sum :=
      if m.hasCauseSecurity then .fv ((rows.map (fun r => r.cs)).sum) else .absent
    late_aircraft_delay_sum :=
      if m.hasCauseLate then .fv ((rows.map (fun r => r.cl)).sum) else .absent }

/-- `chunk.groupby(key, observed=True).agg(**agg_spec)`: one partial row
per distinct key value, aggregating that key's rows. -/
def groupby (f : NRow → Key) (m : Meta) (rows : List NRow) : List (Key × PRow) :=
  ((rows.map f).dedup).map (fun k => (k, aggRows m (rows.filter (fun r => f r = k))))

/-- `groupby` applied to a normalized chunk. -/
def groupbyChunk (f : NRow → Key) (c : NChunk) : List (Key × PRow) :=
  groupby f c.meta c.rows

/-- Monthly grouping key (`chunk.groupby("month")`). -/
def monthKey (r : NRow) : Key := [KeyPart.ym r.month.1 r.month.2]

/-- Carrier grouping key (`chunk.groupby("OP_CARRIER")`). -/
def carrierKey (r : NRow) : Key := [KeyPart.s r.carrier]

/-- Origin grouping key (`chunk.groupby("ORIGIN")`). -/
def originKey (r : NRow) : Key := [KeyPart.s r.origin]

/-- Route grouping key (`chunk.groupby(["ORIGIN", "DEST"])`). -/
def routeKey (r : NRow) : Key := [KeyPart.s r.origin, KeyPart.s r.dest]

/-- `update_overall` (source lines 250-268): add the chunk's length to
`flights` and, per present column, the skipna column sums and
non-missing counts. (After `preprocess_chunk` the over-15 indicator
column exists exactly when its delay column does.) -/
def update_overall (o : Stats) (c : NChunk) : Stats :=
  { flights := o.flights + (c.rows.length : Int)
    arr_delay_sum :=
      if c.meta.hasArr then o.arr_delay_sum + (c.rows.map (fun r => r.arr_delay.getD 0)).sum
      else o.arr_delay_sum
    arr_delay_count :=
      if c.meta.hasArr then
        o.arr_delay_count + ((c.rows.filter (fun r => r.arr_delay.isSome)).length : Int)
      else o.arr_delay_count
    arr_delay_over_15 :=
      if c.meta.hasArr then o.arr_delay_over_15 + (c.rows.map (fun r => r.arr_over15)).sum
      else o.arr_delay_over_15
    dep_delay_sum :=
      if c.meta.hasDep then o.dep_delay_sum + (c.rows.map (fun r => r.dep_delay.getD 0)).sum
      else o.dep_delay_sum
    dep_delay_count :=
      if c.meta.hasDep then
        o.dep_delay_count + ((c.rows.filter (fun r => r.dep_delay.isSome)).length : Int)
      else o.dep_delay_count
    dep_delay_over_15 :=
      if c.meta.hasDep then o.dep_delay_over_15 + (c.rows.map (fun r => r.dep_over15)).sum
      else o.dep_delay_over_15
    cancelled :=
      if c.meta.hasCancelled then o.cancelled + (c.rows.map (fun r => r.cancelled)).sum
      else o.cancelled
    diverted :=
      if c.meta.hasDiverted then o.diverted + (c.rows.map (fun r => r.diverted)).sum
      else o.diverted
    carrier_delay_sum :=
      if c.meta.hasCauseCarrier then o.carrier_delay_sum + (c.rows.map (fun r => r.cc)).sum
      else o.carrier_delay_sum
    weather_delay_sum :=
      if c.meta.hasCauseWeather then o.weather_delay_sum + (c.rows.map (fun r => r.cw)).sum
      else o.weather_delay_sum
    nas_delay_sum :=
      if c.meta.hasCauseNas then o.nas_delay_sum + (c.rows.map (fun r => r.cn)).sum
      else o.nas_delay_sum
    security_delay_sum :=
      if c.meta.hasCauseSecurity then o.security_delay_sum + (c.rows.map (fun r => r.cs)).sum
      else o.security_delay_sum
    late_aircraft_delay_sum :=
      if c.meta.hasCauseLate then o.late_aircraft_delay_sum + (c.rows.map (fun r => r.cl)).sum
      else o.late_aircraft_delay_sum }

/-! ### Finalization and enrichment (`finalize_table`, `enrich_metrics`) -/

/-- One row of a finalized/enriched table: the group key columns, the
metric fields, and the derived ratio columns (absent before enrichment,
`none` also encodes the NaN a zero denominator produces). -/
structure ERow where
  key : Key
  stats : Stats
  avg_arr_delay : Option ℚ := none
  avg_dep_delay : Option ℚ := none
  on_time_rate : Option ℚ := none
  departure_delay_rate : Option ℚ := none
  cancellation_rate : Option ℚ := none
  diversion_rate : Option ℚ := none
deriving DecidableEq

/-- `finalize_table` (source lines 271-279): one flat record per table
entry, key columns then metric fields. -/
def finalize_table (t : Table) : List ERow :=
  t.map (fun p => { key := p.1, stats := p.2 })

/-- The enrichment of one record (`enrich_metrics` body, lines 285-297):
each derived ratio computed from the already-finalized sums/counts via
`safe_divide`; `on_time_rate` is `1 - safe_divide(over15, count)`, and
`1 - NaN` is again NaN (the `Option.map`). Post-`finalize_table` every
metric column exists, so the `issubset` guards of the source all hold. -/
def enrichRow (r : ERow) : ERow :=
  { r with
    avg_arr_delay := safe_divide r.stats.arr_delay_sum (r.stats.arr_delay_count : ℚ)
    avg_dep_delay := safe_divide r.stats.dep_delay_sum (r.stats.dep_delay_count : ℚ)
    on_time_rate :=
      (safe_divide (r.stats.arr_delay_over_15 : ℚ) (r.stats.arr_delay_count : ℚ)).map
        (fun x => 1 - x)
    departure_delay_rate :=
      safe_divide (r.stats.dep_delay_over_15 : ℚ) (r.stats.dep_delay_count : ℚ)
    cancellation_rate := safe_divide (r.stats.cancelled : ℚ) (r.stats.flights : ℚ)
    diversion_rate := safe_divide (r.stats.diverted : ℚ) (r.stats.flights : ℚ) }

/-- `enrich_metrics` (source lines 282-298) on a finalized table (the
empty-frame early return coincides with mapping over the empty list). -/
def enrich_metrics (l : List ERow) : List ERow :=
  l.map enrichRow

/-- The overall cancellation-rate bullet of `build_report`
(source lines 391-394): computed only when the flights total is nonzero
(Python truthiness guard), as `cancelled / flights`. -/
def overall_cancellation_rate (o : Stats) : Option ℚ :=
  if o.flights ≠ 0 then some ((o.cancelled : ℚ) / (o.flights : ℚ)) else none

/-! ### Association-list and table lemmas -/

theorem alook_eq_none_of_not_mem {α β : Type} [DecidableEq α]
    (l : List (α × β)) (k : α) (h : k ∉ l.map Prod.fst) : alook l k = none := by
  induction l with
  | nil => rfl
  | cons p rest ih =>
    simp only [List.map_cons, List.mem_cons] at h
    push_neg at h
    simp [alook, h.1, ih h.2]

theorem alook_map_self {α β : Type} [DecidableEq α] (l : List α) (g : α → β) (k : α) :
    alook (l.map (fun x => (x, g x))) k = if k ∈ l then some (g k) else none := by
  induction l with
  | nil => simp [alook]
  | cons a rest ih =>
    by_cases h : k = a
    · subst h
      simp [alook]
    · simp [alook, h, ih]

theorem alook_map_set (t : Table) (k : Key) (s : Stats) (k' : Key) :
    alook (t.map (fun p => if p.1 = k then (k, s) else p)) k' =
      if k' = k then (alook t k).map (fun _ => s) else alook t k' := by
  induction t with
  | nil => simp [alook]
  | cons p rest ih =>
    obtain ⟨a, b⟩ := p
    by_cases hak : a = k
    · subst hak
      have hhead : (if (a, b).1 = a then (a, s) else (a, b)) = (a, s) := by
        simp
      rw [List.map_cons, hhead]
      by_cases hk' : k' = a
      · subst hk'
        simp [alook]
      · simp only [alook, if_neg hk', ih]
    · have hhead : (if (a, b).1 = k then (k, s) else (a, b)) = (a, b) := by
        simp [hak]
      rw [List.map_cons, hhead]
      by_cases hk' : k' = a
      · subst hk'
        have hk'k : ¬k' = k := hak
        simp [alook, hk'k]
      · simp only [alook, if_neg hk', ih, if_neg (Ne.symm hak)]

theorem alook_append_singleton {α β : Type} [DecidableEq α]
    (l : List (α × β)) (k : α) (v : β) (k' : α) :
    alook (l ++ [(k, v)]) k' =
      match alook l k' with
      | some w => some w
      | none => if k' = k then some v else none := by
  induction l with
  | nil => simp [alook]
  | cons p rest ih =>
    by_cases h : k' = p.1 <;> simp [alook, h, ih]

theorem alook_tableInsert (t : Table) (k : Key) (s : Stats) (k' : Key) :
    alook (tableInsert t k s) k' = if k' = k then some s else alook t k' := by
  unfold tableInsert
  by_cases h : (alook t k).isSome
  · rw [if_pos h, alook_map_set]
    by_cases hk : k' = k
    · obtain ⟨v, hv⟩ := Option.isSome_iff_exists.mp h
      simp [hk, hv]
    · simp [hk]
  · rw [if_neg h, alook_append_singleton]
    by_cases hk : k' = k
    · subst hk
      have : alook t k' = none := Option.not_isSome_iff_eq_none.mp h
      simp [this]
    · cases halt : alook t k' <;> simp [hk]

theorem alook_update_table (t : Table) (g : List (Key × PRow))
    (hnd : (g.map Prod.fst).Nodup) (k : Key) :
    alook (update_table t g) k =
      match alook g k with
      | some p => some (applyRow ((alook t k).getD new_stats) p)
      | none => alook t k := by
  induction g generalizing t with
  | nil => simp [update_table, alook]
  | cons kp rest ih =>
    obtain ⟨k₀, p₀⟩ := kp
    simp only [List.map_cons, List.nodup_cons] at hnd
    have step : update_table t ((k₀, p₀) :: rest) =
        update_table (tableInsert t k₀ (applyRow ((alook t k₀).getD new_stats) p₀)) rest := rfl
    rw [step, ih _ hnd.2]
    by_cases hk : k = k₀
    · subst hk
      have hrest : alook rest k = none := alook_eq_none_of_not_mem _ _ hnd.1
      simp [alook, hrest, alook_tableInsert]
    · have hhd : alook ((k₀, p₀) :: rest) k = alook rest k := by
        simp [alook, hk]
      have h2 : alook (tableInsert t k₀ (applyRow ((alook t k₀).getD new_stats) p₀)) k =
          alook t k := by
        rw [alook_tableInsert]
        simp [hk]
      rw [hhd, h2]

theorem groupby_keys_nodup (f : NRow → Key) (m : Meta) (rows : List NRow) :
    ((groupby f m rows).map Prod.fst).Nodup := by
  unfold groupby
  rw [List.map_map]
  have h : (Prod.fst ∘ fun k => (k, aggRows m (rows.filter (fun r => f r = k)))) = id := rfl
  rw [h, List.map_id]
  exact List.nodup_dedup _

theorem alook_groupby (f : NRow → Key) (m : Meta) (rows : List NRow) (k : Key) :
    alook (groupby f m rows) k =
      if k ∈ rows.map f then some (aggRows m (rows.filter (fun r => f r = k))) else none := by
  unfold groupby
  rw [alook_map_self]
  simp [List.mem_dedup]

/-- The lookup of a table after one grouped batch is merged into it. -/
theorem alook_update_groupby (t : Table) (f : NRow → Key) (m : Meta)
    (rows : List NRow) (k : Key) :
    alook (update_table t (groupby f m rows)) k =
      if k ∈ rows.map f
      then some (applyRow ((alook t k).getD new_stats)
        (aggRows m (rows.filter (fun r => f r = k))))
      else alook t k := by
  rw [alook_update_table _ _ (groupby_keys_nodup f m rows), alook_groupby]
  by_cases h : k ∈ rows.map f <;> simp [h]

/-! ### The additive merge is compatible with splitting a batch -/

theorem applyRow_aggRows_append (s : Stats) (m : Meta) (xs ys : List NRow) :
    applyRow (applyRow s (aggRows m xs)) (aggRows m ys) =
      applyRow s (aggRows m (xs ++ ys)) := by
  simp only [applyRow, aggRows, Stats.mk.injEq]
  refine ⟨?_, ?_, ?_, ?_, ?_, ?_, ?_, ?_, ?_, ?_, ?_, ?_, ?_, ?_⟩
  · push_cast [List.length_append]
    ring
  · by_cases h : m.hasArr <;>
      simp [h, addSumF, List.map_append, List.sum_append] <;> ring
  · by_cases h : m.hasArr <;>
      simp [h, addCntF, List.filter_append, List.length_append] <;> push_cast <;> ring
  · by_cases h : m.hasArr <;>
      simp [h, addCntF, List.map_append, List.sum_append] <;> ring
  · by_cases h : m.hasDep <;>
      simp [h, addSumF, List.map_append, List.sum_append] <;> ring
  · by_cases h : m.hasDep <;>
      simp [h, addCntF, List.filter_append, List.length_append] <;> push_cast <;> ring
  · by_cases h : m.hasDep <;>
      simp [h, addCntF, List.map_append, List.sum_append] <;> ring
  · by_cases h : m.hasCancelled <;>
      simp [h, addCntF, List.map_append, List.sum_append] <;> ring
  · by_cases h : m.hasDiverted <;>
      simp [h, addCntF, List.map_append, List.sum_append] <;> ring
  · by_cases h : m.hasCauseCarrier <;>
      simp [h, addSumF, List.map_append, List.sum_append] <;> ring
  · by_cases h : m.hasCauseWeather <;>
      simp [h, addSumF, List.map_append, List.sum_append] <;> ring
  · by_cases h : m.hasCauseNas <;>
      simp [h, addSumF, List.map_append, List.sum_append] <;> ring
  · by_cases h : m.hasCauseSecurity <;>
      simp [h, addSumF, List.map_append, List.sum_append] <;> ring
  · by_cases h : m.hasCauseLate <;>
      simp [h, addSumF, List.map_append, List.sum_append] <;> ring

theorem aggRows_append_comm (m : Meta) (xs ys : List NRow) :
    aggRows m (xs ++ ys) = aggRows m (ys ++ xs) := by
  simp only [aggRows, Stats.mk.injEq, PRow.mk.injEq]
  refine ⟨?_, ?_, ?_, ?_, ?_, ?_, ?_, ?_, ?_, ?_, ?_, ?_, ?_, ?_⟩ <;>
    simp [List.map_append, List.sum_append, List.filter_append, List.length_append,
      Nat.add_comm, add_comm]

/-- Claim C1: merge order-independence.  For every file schema, grouping
dimension and pair of normalized row batches, aggregating the rows in
one batch produces, at every group key, the same Metric Record as
aggregating the first batch alone and then merging the second batch's
partial into the running table; and swapping the two batches changes
nothing either, so partitioning rows across batches or files never
changes the final table. -/
theorem c1_merge_order_independence (m : Meta) (f : NRow → Key)
    (A B : List NRow) (k : Key) :
    alook (update_table [] (groupby f m (A ++ B))) k =
      alook (update_table (update_table [] (groupby f m A)) (groupby f m B)) k
    ∧ alook (update_table [] (groupby f m (A ++ B))) k =
      alook (update_table [] (groupby f m (B ++ A))) k := by
  have hempty : alook ([] : Table) k = none := rfl
  constructor
  · rw [alook_update_groupby, alook_update_groupby, alook_update_groupby]
    by_cases hA : k ∈ A.map f <;> by_cases hB : k ∈ B.map f
    · have hAB : k ∈ (A ++ B).map f := by
        rw [List.map_append, List.mem_append]
        exact Or.inl hA
      rw [if_pos hAB, if_pos hB, if_pos hA, hempty]
      rw [List.filter_append, Option.getD_some, Option.getD_none,
        applyRow_aggRows_append]
    · have hAB : k ∈ (A ++ B).map f := by
        rw [List.map_append, List.mem_append]
        exact Or.inl hA
      have hBnil : B.filter (fun r => f r = k) = [] := by
        rw [List.filter_eq_nil]
        intro r hr hfr
        exact hB (List.mem_map.mpr ⟨r, hr, of_decide_eq_true hfr⟩)
      rw [if_pos hAB, if_neg hB, if_pos hA, hempty, Option.getD_none,
        List.filter_append, hBnil, List.append_nil]
    · have hAB : k ∈ (A ++ B).map f := by
        rw [List.map_append, List.mem_append]
        exact Or.inr hB
      have hAnil : A.filter (fun r => f r = k) = [] := by
        rw [List.filter_eq_nil]
        intro r hr hfr
        exact hA (List.mem_map.mpr ⟨r, hr, of_decide_eq_true hfr⟩)
      rw [if_pos hAB, if_pos hB, if_neg hA, hempty, Option.getD_none,
        List.filter_append, hAnil, List.nil_append]
    · have hAB : k ∉ (A ++ B).map f := by
        rw [List.map_append, List.mem_append]
        intro h
        rcases h with h | h
        · exact hA h
        · exact hB h
      rw [if_neg hAB, if_neg hB, if_neg hA, hempty]
  · rw [alook_update_groupby, alook_update_groupby]
    have hmem : k ∈ (A ++ B).map f ↔ k ∈ (B ++ A).map f := by
      rw [List.map_append, List.map_append, List.mem_append, List.mem_append, or_comm]
    by_cases hAB : k ∈ (A ++ B).map f
    · rw [if_pos hAB, if_pos (hmem.mp hAB), List.filter_append, List.filter_append,
        show A.filter (fun r => f r = k) ++ B.filter (fun r => f r = k) =
            A.filter (fun r => f r = k) ++ B.filter (fun r => f r = k) from rfl]
      rw [aggRows_append_comm]
    · rw [if_neg hAB, if_neg (fun h => hAB (hmem.mpr h))]

/-- Enriching twice is the same as enriching once: the second pass reads
only the untouched sums/counts and recomputes identical derived fields. -/
theorem enrichRow_idem (r : ERow) : enrichRow (enrichRow r) = enrichRow r := by
  cases r
  rfl

/-- Claim C7: idempotent enrichment.  Applying the Metric Enricher to an
already-enriched table recomputes identical derived fields, and
enrichment never mutates the underlying sums/counts. -/
theorem c7_idempotent_enrichment (l : List ERow) :
    enrich_metrics (enrich_metrics l) = enrich_metrics l
    ∧ (enrich_metrics l).map (fun r => r.stats) = l.map (fun r => r.stats) := by
  constructor
  · unfold enrich_metrics
    rw [List.map_map]
    have h : enrichRow ∘ enrichRow = enrichRow := by
      funext r
      exact enrichRow_idem r
    rw [h]
  · unfold enrich_metrics
    rw [List.map_map]
    have h : ((fun r : ERow => r.stats) ∘ enrichRow) = fun r : ERow => r.stats := by
      funext r
      cases r
      rfl
    rw [h]

/-- Claim C3: zero-denominator safety.  A record whose arrival-delay
count is zero gets a null (`none`) on-time rate and average arrival
delay — not an error and not zero; the same holds for the other derived
rates whenever their denominator is zero.  When the count is nonzero the
on-time rate divides by the count of non-missing arrival-delay
observations — which, per the grouped aggregation, is the number of rows
whose arrival delay is present, not the total flights. -/
theorem c3_zero_denominator_safety (r : ERow) (m : Meta) (rows : List NRow) :
    (r.stats.arr_delay_count = 0 →
      (enrichRow r).on_time_rate = none ∧ (enrichRow r).avg_arr_delay = none)
    ∧ (r.stats.arr_delay_count ≠ 0 →
      (enrichRow r).on_time_rate =
        some (1 - (r.stats.arr_delay_over_15 : ℚ) / (r.stats.arr_delay_count : ℚ)))
    ∧ (r.stats.dep_delay_count = 0 →
      (enrichRow r).avg_dep_delay = none ∧ (enrichRow r).departure_delay_rate = none)
    ∧ (r.stats.flights = 0 →
      (enrichRow r).cancellation_rate = none ∧ (enrichRow r).diversion_rate = none)
    ∧ (m.hasArr = true →
      (aggRows m rows).arr_delay_count =
        GF.iv ((rows.filter (fun x => x.arr_delay.isSome)).length : Int)) := by
  refine ⟨?_, ?_, ?_, ?_, ?_⟩
  · intro h
    constructor <;> simp [enrichRow, safe_divide, h]
  · intro h
    have hq : (r.stats.arr_delay_count : ℚ) ≠ 0 := by
      exact_mod_cast h
    simp [enrichRow, safe_divide, hq]
  · intro h
    constructor <;> simp [enrichRow, safe_divide, h]
  · intro h
    constructor <;> simp [enrichRow, safe_divide, h]
  · intro h
    simp [aggRows, h]

/-- A record with zero observations everywhere. -/
def c3_zero_record : ERow :=
  { key := [KeyPart.s "XX"], stats := new_stats }

/-- Witness for C3 at a concrete record: all-zero counts yield null
rates across the board, and a nonzero count yields the real quotient. -/
theorem c3_zero_denominator_safety_witness :
    ((enrichRow c3_zero_record).on_time_rate = none
      ∧ (enrichRow c3_zero_record).avg_arr_delay = none)
    ∧ ((enrichRow c3_zero_record).avg_dep_delay = none
      ∧ (enrichRow c3_zero_record).departure_delay_rate = none)
    ∧ ((enrichRow c3_zero_record).cancellation_rate = none
      ∧ (enrichRow c3_zero_record).diversion_rate = none)
    ∧ (aggRows
        { hasCarrier := false, hasOrigin := false, hasDest := false, hasArr := true,
          hasDep := false, hasCancelled := false, hasDiverted := false,
          hasCauseCarrier := false, hasCauseWeather := false, hasCauseNas := false,
          hasCauseSecurity := false, hasCauseLate := false } []).arr_delay_count =
      GF.iv 0 := by
  have h := c3_zero_denominator_safety c3_zero_record
    { hasCarrier := false, hasOrigin := false, hasDest := false, hasArr := true,
      hasDep := false, hasCancelled := false, hasDiverted := false,
      hasCauseCarrier := false, hasCauseWeather := false, hasCauseNas := false,
      hasCauseSecurity := false, hasCauseLate := false } []
  exact ⟨h.1 (by decide), h.2.2.1 (by decide), h.2.2.2.1 (by decide),
    h.2.2.2.2 (by decide)⟩

/-- The file schema of the C2 boundary scenario: date, carrier, origin,
destination, delays and the cancelled flag are present. -/
def c2_meta : Meta :=
  { hasCarrier := true, hasOrigin := true, hasDest := true, hasArr := true,
    hasDep := true, hasCancelled := true, hasDiverted := false,
    hasCauseCarrier := false, hasCauseWeather := false, hasCauseNas := false,
    hasCauseSecurity := false, hasCauseLate := false }

/-- The three-row batch of the C2 boundary scenario. -/
def c2_chunk : Chunk :=
  { meta := c2_meta
    rows :=
      [{ fl_date := some ⟨2024, 1, 5⟩, carrier := "AA", origin := "JFK", dest := "LAX",
         arr_delay := some 20, dep_delay := some 5,
         cancelled := .ftext "N", diverted := .fna,
         causes := { cc := none, cw := none, cn := none, cs := none, cl := none } },
       { fl_date := some ⟨2024, 1, 20⟩, carrier := "AA", origin := "JFK", dest := "LAX",
         arr_delay := none, dep_delay := none,
         cancelled := .ftext "Y", diverted := .fna,
         causes := { cc := none, cw := none, cn := none, cs := none, cl := none } },
       { fl_date := some ⟨2024, 2, 1⟩, carrier := "DL", origin := "ATL", dest := "LAX",
         arr_delay := some 10, dep_delay := some (-3),
         cancelled := .ftext "N", diverted := .fna,
         causes := { cc := none, cw := none, cn := none, cs := none, cl := none } }] }

/-- The monthly table after processing the C2 batch. -/
def c2_monthly : Table :=
  update_table [] (groupbyChunk monthKey (preprocess_chunk c2_chunk))

/-- The carrier table after processing the C2 batch, enriched. -/
def c2_carrier_enriched : List ERow :=
  enrich_metrics (finalize_table
    (update_table [] (groupbyChunk carrierKey (preprocess_chunk c2_chunk))))

/-- Claim C2: the concrete boundary scenario.  Normalizing, aggregating
and enriching the three-row batch yields monthly key 2024-01 with
flights 2, arrival-delay count 1, sum 20, over-15 count 1, cancelled 1;
monthly key 2024-02 with flights 1, count 1, sum 10, over-15 0,
cancelled 0; carrier AA on-time rate 0, carrier DL on-time rate 1; and
overall cancellation rate 1/3. -/
theorem c2_boundary_scenario :
    ((alook c2_monthly [KeyPart.ym 2024 1]).map (fun s =>
        (s.flights, s.arr_delay_count, s.arr_delay_sum, s.arr_delay_over_15, s.cancelled)))
      = some (2, 1, 20, 1, 1)
    ∧ ((alook c2_monthly [KeyPart.ym 2024 2]).map (fun s =>
        (s.flights, s.arr_delay_count, s.arr_delay_sum, s.arr_delay_over_15, s.cancelled)))
      = some (1, 1, 10, 0, 0)
    ∧ ((c2_carrier_enriched.find? (fun r => r.key = [KeyPart.s "AA"])).map
        (fun r => r.on_time_rate)) = some (some 0)
    ∧ ((c2_carrier_enriched.find? (fun r => r.key = [KeyPart.s "DL"])).map
        (fun r => r.on_time_rate)) = some (some 1)
    ∧ overall_cancellation_rate
        (update_overall new_stats (preprocess_chunk c2_chunk)) = some (1 / 3) := by
  refine ⟨?_, ?_, ?_, ?_, ?_⟩ <;>
    · simp +decide [c2_monthly, c2_carrier_enriched, c2_chunk, c2_meta, update_table,
        groupbyChunk, groupby, preprocess_chunk, kept, cancColumn, divColumn,
        normalize_flag, boolFlagVal, numFlagVal, textFlagVal, pyStripUpper,
        positiveFlagTokens, mkNRow, zipWith3, over15Ind,
        aggRows, monthKey, carrierKey, alook, tableInsert, applyRow, addSumF, addCntF,
        new_stats, to_numericCell, pyInt, FlagCell.isFb, finalize_table, enrich_metrics,
        enrichRow, safe_divide, update_overall, overall_cancellation_rate,
        List.dedup_nil, List.dedup_cons_of_mem, List.dedup_cons_of_not_mem]

/-! ### Row-level characterization of `preprocess_chunk` -/

theorem normalize_flag_length (s : List FlagCell) :
    (normalize_flag s).length = s.length := by
  unfold normalize_flag
  by_cases h0 : s.isEmpty
  · rw [if_pos h0]
    rw [List.isEmpty_iff] at h0
    simp [h0]
  · rw [if_neg h0]
    by_cases h1 : s.all FlagCell.isFb
    · rw [if_pos h1, List.length_map]
    · rw [if_neg h1]
      by_cases h2 : s.any (fun c => (to_numericCell c).isSome)
      · rw [if_pos h2, List.length_map]
      · rw [if_neg h2, List.length_map]

theorem cancColumn_length (c : Chunk) : (cancColumn c).length = (kept c).length := by
  unfold cancColumn
  by_cases h : c.meta.hasCancelled <;>
    simp [h, normalize_flag_length]

theorem divColumn_length (c : Chunk) : (divColumn c).length = (kept c).length := by
  unfold divColumn
  by_cases h : c.meta.hasDiverted <;>
    simp [h, normalize_flag_length]

theorem zipWith3_getElem? {α β γ δ : Type} (f : α → β → γ → δ)
    (as : List α) (bs : List β) (cs : List γ) (i : Nat) :
    (zipWith3 f as bs cs)[i]? =
      match as[i]?, bs[i]?, cs[i]? with
      | some a, some b, some c => some (f a b c)
      | _, _, _ => none := by
  induction as generalizing bs cs i with
  | nil => simp [zipWith3]
  | cons a as ih =>
    cases bs with
    | nil => simp [zipWith3]
    | cons b bs =>
      cases cs with
      | nil => simp [zipWith3]
      | cons c cs =>
        cases i with
        | zero => simp [zipWith3]
        | succ j => simpa [zipWith3] using ih bs cs j

/-- From a surviving raw row at index `i`, the normalized row at index
`i` is `mkNRow` of it and its normalized flag cells. -/
theorem preprocess_nrow_eq (c : Chunk) (i : Nat) (r : Row) (nr : NRow)
    (hr : (kept c)[i]? = some r)
    (hn : (preprocess_chunk c).rows[i]? = some nr) :
    ∃ cz dz : Int, nr = mkNRow r cz dz := by
  have hi : i < (kept c).length := by
    by_contra hlt
    rw [List.getElem?_eq_none (Nat.le_of_not_lt hlt)] at hr
    exact Option.noConfusion hr
  have hc : (cancColumn c)[i]? =
      some ((cancColumn c).get ⟨i, by rw [cancColumn_length]; exact hi⟩) :=
    List.getElem?_eq_getElem _
  have hd : (divColumn c)[i]? =
      some ((divColumn c).get ⟨i, by rw [divColumn_length]; exact hi⟩) :=
    List.getElem?_eq_getElem _
  have hrw : (preprocess_chunk c).rows = zipWith3 mkNRow (kept c) (cancColumn c) (divColumn c) :=
    rfl
  rw [hrw, zipWith3_getElem?, hr, hc, hd] at hn
  exact ⟨_, _, (Option.some.injEq _ _).mp hn.symm⟩

/-- Claim C4: threshold strictness.  For every chunk and every surviving
row, the normalized over-15 indicators are 1 exactly when the
corresponding non-missing delay is strictly greater than 15 minutes, and
0 exactly when it is at most 15 (so a delay of exactly 15.0 is not
counted); the same strict rule applies to arrival and departure delays. -/
theorem c4_threshold_strictness (c : Chunk) (i : Nat) (r : Row) (nr : NRow)
    (hr : (kept c)[i]? = some r)
    (hn : (preprocess_chunk c).rows[i]? = some nr) :
    (∀ q : ℚ, r.arr_delay = some q →
      ((nr.arr_over15 = 1 ↔ 15 < q) ∧ (nr.arr_over15 = 0 ↔ q ≤ 15)))
    ∧ (∀ q : ℚ, r.dep_delay = some q →
      ((nr.dep_over15 = 1 ↔ 15 < q) ∧ (nr.dep_over15 = 0 ↔ q ≤ 15))) := by
  obtain ⟨cz, dz, hmk⟩ := preprocess_nrow_eq c i r nr hr hn
  subst hmk
  constructor
  · intro q hq
    simp only [mkNRow, over15Ind, hq]
    by_cases h15 : 15 < q
    · simp [h15, not_le.mpr h15]
    · simp [h15, not_lt.mp h15]
  · intro q hq
    simp only [mkNRow, over15Ind, hq]
    by_cases h15 : 15 < q
    · simp [h15, not_le.mpr h15]
    · simp [h15, not_lt.mp h15]

/-- A two-row chunk exercising the 15.0 / 15.01 threshold boundary. -/
def c4_chunk : Chunk :=
  { meta :=
      { hasCarrier := false, hasOrigin := false, hasDest := false, hasArr := true,
        hasDep := true, hasCancelled := false, hasDiverted := false,
        hasCauseCarrier := false, hasCauseWeather := false, hasCauseNas := false,
        hasCauseSecurity := false, hasCauseLate := false }
    rows :=
      [{ fl_date := some ⟨2024, 3, 1⟩, carrier := "AA", origin := "JFK", dest := "LAX",
         arr_delay := some 15, dep_delay := some 15,
         cancelled := .fna, diverted := .fna,
         causes := { cc := none, cw := none, cn := none, cs := none, cl := none } },
       { fl_date := some ⟨2024, 3, 2⟩, carrier := "AA", origin := "JFK", dest := "LAX",
         arr_delay := some (1501 / 100), dep_delay := some (1501 / 100),
         cancelled := .fna, diverted := .fna,
         causes := { cc := none, cw := none, cn := none, cs := none, cl := none } }] }

/-- Witness for C4: delay exactly 15.0 is not counted, 15.01 is. -/
theorem c4_threshold_strictness_witness :
    ((preprocess_chunk c4_chunk).rows[0]? = some
        (mkNRow (c4_chunk.rows.get ⟨0, by decide⟩) 0 0)
      ∧ (mkNRow (c4_chunk.rows.get ⟨0, by decide⟩) 0 0).arr_over15 = 0)
    ∧ ((preprocess_chunk c4_chunk).rows[1]? = some
        (mkNRow (c4_chunk.rows.get ⟨1, by decide⟩) 0 0)
      ∧ (mkNRow (c4_chunk.rows.get ⟨1, by decide⟩) 0 0).arr_over15 = 1) := by
  have hk0 : (kept c4_chunk)[0]? = some (c4_chunk.rows.get ⟨0, by decide⟩) := rfl
  have hk1 : (kept c4_chunk)[1]? = some (c4_chunk.rows.get ⟨1, by decide⟩) := rfl
  have hn0 : (preprocess_chunk c4_chunk).rows[0]? = some
      (mkNRow (c4_chunk.rows.get ⟨0, by decide⟩) 0 0) := rfl
  have hn1 : (preprocess_chunk c4_chunk).rows[1]? = some
      (mkNRow (c4_chunk.rows.get ⟨1, by decide⟩) 0 0) := rfl
  have h0 := c4_threshold_strictness c4_chunk 0 _ _ hk0 hn0
  have h1 := c4_threshold_strictness c4_chunk 1 _ _ hk1 hn1
  refine ⟨⟨hn0, ?_⟩, ⟨hn1, ?_⟩⟩
  · exact (h0.1 15 rfl).2.mpr le_rfl
  · exact (h1.1 (1501 / 100) rfl).1.mpr (by norm_num)

/-- A skipna sum only ever accumulates the present values: summing
`getD 0` over all elements equals summing it over the elements whose
value is present. -/
theorem sum_getD_eq_sum_filter {α : Type} (l : List α) (f : α → Option ℚ) :
    (l.map (fun a => (f a).getD 0)).sum =
      ((l.filter (fun a => (f a).isSome)).map (fun a => (f a).getD 0)).sum := by
  induction l with
  | nil => rfl
  | cons a l ih =>
    cases hfa : f a with
    | none => simp [List.filter_cons, hfa, ih]
    | some v => simp [List.filter_cons, hfa, ih]

/-- Claim C9: missing-value asymmetry.  Normalization turns every
missing delay-cause minute value into 0.0, while a missing primary
arrival/departure delay stays missing; in the grouped aggregation the
missing delays are excluded from both the delay sum and the delay count
(not treated as zero), whereas the cause sums range over all rows with
the defaulted zeros. -/
theorem c9_missing_value_asymmetry (c : Chunk) (i : Nat) (r : Row) (nr : NRow)
    (hr : (kept c)[i]? = some r)
    (hn : (preprocess_chunk c).rows[i]? = some nr) :
    (nr.cc = r.causes.cc.getD 0 ∧ nr.cw = r.causes.cw.getD 0
      ∧ nr.cn = r.causes.cn.getD 0 ∧ nr.cs = r.causes.cs.getD 0
      ∧ nr.cl = r.causes.cl.getD 0)
    ∧ (nr.arr_delay = r.arr_delay ∧ nr.dep_delay = r.dep_delay)
    ∧ (∀ (m : Meta) (rows : List NRow), m.hasArr = true →
        (aggRows m rows).arr_delay_count =
          GF.iv (((rows.filter (fun x => x.arr_delay.isSome)).length : Int))
        ∧ (aggRows m rows).arr_delay_sum =
          GF.fv (((rows.filter (fun x => x.arr_delay.isSome)).map
            (fun x => x.arr_delay.getD 0)).sum))
    ∧ (∀ (m : Meta) (rows : List NRow), m.hasDep = true →
        (aggRows m rows).dep_delay_count =
          GF.iv (((rows.filter (fun x => x.dep_delay.isSome)).length : Int))
        ∧ (aggRows m rows).dep_delay_sum =
          GF.fv (((rows.filter (fun x => x.dep_delay.isSome)).map
            (fun x => x.dep_delay.getD 0)).sum))
    ∧ (∀ (m : Meta) (rows : List NRow), m.hasCauseCarrier = true →
        (aggRows m rows).carrier_delay_sum = GF.fv ((rows.map (fun x => x.cc)).sum)) := by
  obtain ⟨cz, dz, hmk⟩ := preprocess_nrow_eq c i r nr hr hn
  subst hmk
  refine ⟨⟨rfl, rfl, rfl, rfl, rfl⟩, ⟨rfl, rfl⟩, ?_, ?_, ?_⟩
  · intro m rows hm
    refine ⟨by simp [aggRows, hm], ?_⟩
    simp [aggRows, hm, sum_getD_eq_sum_filter rows (fun x => x.arr_delay)]
  · intro m rows hm
    refine ⟨by simp [aggRows, hm], ?_⟩
    simp [aggRows, hm, sum_getD_eq_sum_filter rows (fun x => x.dep_delay)]
  · intro m rows hm
    simp [aggRows, hm]

/-- A one-row chunk with a missing arrival delay and a missing
carrier-delay cause value. -/
def c9_chunk : Chunk :=
  { meta :=
      { hasCarrier := false, hasOrigin := false, hasDest := false, hasArr := true,
        hasDep := true, hasCancelled := false, hasDiverted := false,
        hasCauseCarrier := true, hasCauseWeather := true, hasCauseNas := true,
        hasCauseSecurity := true, hasCauseLate := true }
    rows :=
      [{ fl_date := some ⟨2024, 4, 1⟩, carrier := "AA", origin := "JFK", dest := "LAX",
         arr_delay := none, dep_delay := some 7,
         cancelled := .fna, diverted := .fna,
         causes := { cc := none, cw := some 3, cn := none, cs := none, cl := none } }] }

/-- Witness for C9 at the concrete one-row chunk: the missing cause
becomes 0, the missing arrival delay stays missing, and the aggregate
excludes it from the arrival-delay count while the cause sum covers the
row. -/
theorem c9_missing_value_asymmetry_witness :
    (mkNRow (c9_chunk.rows.get ⟨0, by decide⟩) 0 0).cc = 0
    ∧ (mkNRow (c9_chunk.rows.get ⟨0, by decide⟩) 0 0).cw = 3
    ∧ (mkNRow (c9_chunk.rows.get ⟨0, by decide⟩) 0 0).arr_delay = none
    ∧ (aggRows c9_chunk.meta (preprocess_chunk c9_chunk).rows).arr_delay_count = GF.iv 0
    ∧ (aggRows c9_chunk.meta (preprocess_chunk c9_chunk).rows).arr_delay_sum = GF.fv 0
    ∧ (aggRows c9_chunk.meta (preprocess_chunk c9_chunk).rows).dep_delay_count = GF.iv 1
    ∧ (aggRows c9_chunk.meta (preprocess_chunk c9_chunk).rows).carrier_delay_sum
      = GF.fv 0 := by
  have h := c9_missing_value_asymmetry c9_chunk 0 (c9_chunk.rows.get ⟨0, by decide⟩)
    (mkNRow (c9_chunk.rows.get ⟨0, by decide⟩) 0 0) rfl rfl
  refine ⟨h.1.1.trans rfl, h.1.2.1.trans rfl, h.2.1.1.trans rfl, ?_, ?_, ?_, ?_⟩
  · have := (h.2.2.1 c9_chunk.meta (preprocess_chunk c9_chunk).rows rfl).1
    simpa using this
  · have := (h.2.2.1 c9_chunk.meta (preprocess_chunk c9_chunk).rows rfl).2
    simpa using this
  · have := (h.2.2.2.1 c9_chunk.meta (preprocess_chunk c9_chunk).rows rfl).1
    simpa [preprocess_chunk, kept, c9_chunk, cancColumn, divColumn, normalize_flag,
      textFlagVal, zipWith3, mkNRow] using this
  · have := (h.2.2.2.2 c9_chunk.meta (preprocess_chunk c9_chunk).rows rfl)
    simpa [preprocess_chunk, kept, c9_chunk, cancColumn, divColumn, normalize_flag,
      textFlagVal, zipWith3, mkNRow, to_numericCell, FlagCell.isFb] using this

/-- Claim C6: silent drop of unparsable dates.  Removing the rows whose
date failed to parse before normalization changes nothing (they are
dropped anyway), and a batch consisting only of such rows contributes to
no metric whatsoever: normalization yields no rows, the overall record
is left unchanged, and every grouped table is left unchanged.  The
normalization itself is total — no error is surfaced for such rows. -/
theorem c6_silent_drop_of_unparsable_dates (c : Chunk) :
    preprocess_chunk { c with rows := c.rows.filter (fun r => r.fl_date.isSome) }
      = preprocess_chunk c
    ∧ ((∀ r ∈ c.rows, r.fl_date = none) →
        (preprocess_chunk c).rows = []
        ∧ (∀ o : Stats, update_overall o (preprocess_chunk c) = o)
        ∧ (∀ (f : NRow → Key) (t : Table),
            update_table t (groupbyChunk f (preprocess_chunk c)) = t)) := by
  constructor
  · have hk : kept { c with rows := c.rows.filter (fun r => r.fl_date.isSome) } = kept c := by
      unfold kept
      simp
    simp [preprocess_chunk, cancColumn, divColumn, hk]
  · intro hall
    have hkept : kept c = [] := by
      unfold kept
      rw [List.filter_eq_nil]
      intro r hr
      simp [hall r hr]
    have hrows : (preprocess_chunk c).rows = [] := by
      show zipWith3 mkNRow (kept c) (cancColumn c) (divColumn c) = []
      rw [hkept]
      rfl
    refine ⟨hrows, ?_, ?_⟩
    · intro o
      cases o
      simp [update_overall, hrows]
    · intro f t
      simp [groupbyChunk, groupby, hrows, update_table]

/-- A chunk whose single row has an unparsable date. -/
def c6_chunk : Chunk :=
  { meta :=
      { hasCarrier := true, hasOrigin := true, hasDest := true, hasArr := true,
        hasDep := true, hasCancelled := true, hasDiverted := true,
        hasCauseCarrier := false, hasCauseWeather := false, hasCauseNas := false,
        hasCauseSecurity := false, hasCauseLate := false }
    rows :=
      [{ fl_date := none, carrier := "AA", origin := "JFK", dest := "LAX",
         arr_delay := some 99, dep_delay := some 99,
         cancelled := .ftext "Y", diverted := .ftext "Y",
         causes := { cc := none, cw := none, cn := none, cs := none, cl := none } }] }

/-- Witness for C6: a batch whose only row has an unparsable date leaves
every accumulator untouched. -/
theorem c6_silent_drop_of_unparsable_dates_witness :
    (preprocess_chunk c6_chunk).rows = []
    ∧ update_overall new_stats (preprocess_chunk c6_chunk) = new_stats
    ∧ update_table [] (groupbyChunk monthKey (preprocess_chunk c6_chunk)) = [] := by
  have h := (c6_silent_drop_of_unparsable_dates c6_chunk).2
    (by intro r hr; simp [c6_chunk] at hr; rw [hr])
  exact ⟨h.1, h.2.1 new_stats, h.2.2 monthKey []⟩

/-! ### Column-resolution lemmas -/

theorem alook_buildColumnMap_not_mem (cans columns : List String) (x : String)
    (h : x ∉ cans) : alook (buildColumnMap cans columns) x = none := by
  induction cans with
  | nil => rfl
  | cons c rest ih =>
    simp only [List.mem_cons] at h
    push_neg at h
    unfold buildColumnMap
    cases hf : (aliasesOf c).find? (fun a => columns.contains a) with
    | some a => simp [alook, h.1, ih h.2]
    | none => exact ih h.2

theorem alook_buildColumnMap (cans columns : List String) (x : String)
    (hnd : cans.Nodup) (hmem : x ∈ cans) :
    alook (buildColumnMap cans columns) x =
      (aliasesOf x).find? (fun a => columns.contains a) := by
  induction cans with
  | nil => cases hmem
  | cons c rest ih =>
    rw [List.nodup_cons] at hnd
    unfold buildColumnMap
    by_cases hx : x = c
    · subst hx
      cases hf : (aliasesOf x).find? (fun a => columns.contains a) with
      | some a => simp [alook]
      | none => exact alook_buildColumnMap_not_mem rest columns x hnd.1
    · have hmem2 : x ∈ rest := by
        rcases List.mem_cons.mp hmem with h | h
        · exact absurd h hx
        · exact h
      cases hf : (aliasesOf c).find? (fun a => columns.contains a) with
      | some a => simp [alook, hx, ih hnd.2 hmem2]
      | none => exact ih hnd.2 hmem2

/-- Claim C5: alias resolution and SchemaError.  For every header, the
resolver maps each canonical field to the first alias (in declared
priority order) present in the header, leaves a canonical field simply
unresolved when no alias is present (no error), and fails with the
schema error exactly when no alias of the mandatory date field occurs in
the header. -/
theorem c5_alias_resolution (columns : List String) :
    (∀ canonical ∈ DESIRED_COLUMNS,
      alook (buildColumnMap DESIRED_COLUMNS columns) canonical =
        (aliasesOf canonical).find? (fun a => columns.contains a))
    ∧ ((∃ e, determine_available_columns columns = Except.error e) ↔
        ∀ a ∈ aliasesOf "FL_DATE", a ∉ columns) := by
  have hnd : DESIRED_COLUMNS.Nodup := by decide
  have hfl : alook (buildColumnMap DESIRED_COLUMNS columns) "FL_DATE" =
      (aliasesOf "FL_DATE").find? (fun a => columns.contains a) :=
    alook_buildColumnMap _ _ _ hnd (by decide)
  constructor
  · intro canonical hmem
    exact alook_buildColumnMap _ _ _ hnd hmem
  · unfold determine_available_columns
    dsimp only
    rw [hfl]
    cases hs : (aliasesOf "FL_DATE").find? (fun a => columns.contains a) with
    | some a =>
      simp only [Option.isSome_some, if_pos]
      constructor
      · rintro ⟨e, he⟩
        exact Except.noConfusion he
      · intro hall
        have hmem : columns.contains a = true := List.find?_some hs
        have hmem2 : a ∈ aliasesOf "FL_DATE" := List.mem_of_find?_eq_some hs
        exact absurd (by simpa using hmem) (hall a hmem2)
    | none =>
      simp only [Option.isSome_none, Bool.false_eq_true, if_false]
      constructor
      · intro _ a ha hcol
        have hne := List.find?_eq_none.mp hs a ha
        exact hne (by simpa using hcol)
      · intro _
        exact ⟨"FL_DATE column not found", rfl⟩

/-- Witness for C5: a legacy header resolves `ARR_DELAY` through its
alias, leaves `DEP_DELAY` unavailable without an error, and a header
with no date alias at all produces the schema error. -/
theorem c5_alias_resolution_witness :
    alook (buildColumnMap DESIRED_COLUMNS ["FlightDate", "ArrDelay", "Origin"]) "ARR_DELAY"
      = some "ArrDelay"
    ∧ alook (buildColumnMap DESIRED_COLUMNS ["FlightDate", "ArrDelay", "Origin"]) "DEP_DELAY"
      = none
    ∧ (∃ e, determine_available_columns ["ArrDelay", "Origin"] = Except.error e) := by
  have h1 := (c5_alias_resolution ["FlightDate", "ArrDelay", "Origin"]).1 "ARR_DELAY"
    (by decide)
  have h2 := (c5_alias_resolution ["FlightDate", "ArrDelay", "Origin"]).1 "DEP_DELAY"
    (by decide)
  have h3 := (c5_alias_resolution ["ArrDelay", "Origin"]).2.mpr (by decide)
  exact ⟨h1.trans (by decide), h2.trans (by decide), h3⟩

/-! ### Flag normalization (claim C8) -/

/-- Counterexample to claim C8 as stated: `normalize_flag` is a
column-level operation, not a value-level one.  The text value "Y"
normalizes to 1 in a column with no numeric-coercible value, but to 0 in
a column that also contains the numeric value 1 — so a value's
normalized result does not depend only on that value, and a positive
text encoding is not always mapped to 1. -/
theorem c8_flag_normalization_counterexample :
    normalize_flag [FlagCell.ftext "Y"] = [1]
    ∧ normalize_flag [FlagCell.fnum 1, FlagCell.ftext "Y"] = [1, 0] := by
  constructor <;> decide

/-- Claim C8 (amended): flag normalization is branch-per-column.  A
bool-dtyped column casts directly to 0/1; otherwise, if any value of the
column coerces to numeric, the whole column is numeric-coerced (text and
missing values become 0, numeric values keep their integer truncation);
only when no value of the column coerces to numeric are the text values
"Y"/"Yes"/"True"/"T"/"1" (case-insensitively, stripped) mapped to 1 and
every other value to 0.  A value's normalized result therefore depends
on which branch its column selects, not only on the value itself. -/
theorem c8_flag_normalization (s : List FlagCell) (i : Nat) (cell : FlagCell)
    (hc : s[i]? = some cell) :
    (s.all FlagCell.isFb = true →
      (normalize_flag s)[i]? = some (boolFlagVal cell))
    ∧ (s.all FlagCell.isFb = false →
        s.any (fun c => (to_numericCell c).isSome) = true →
        (normalize_flag s)[i]? = some (numFlagVal cell))
    ∧ ((∀ c ∈ s, to_numericCell c = none) →
        (normalize_flag s)[i]? = some (textFlagVal cell)) := by
  have hne : s.isEmpty = false := by
    cases s with
    | nil => simp at hc
    | cons a l => rfl
  refine ⟨?_, ?_, ?_⟩
  · intro hall
    unfold normalize_flag
    rw [hne, if_neg (by simp), if_pos hall, List.getElem?_map, hc]
    rfl
  · intro hall hany
    unfold normalize_flag
    rw [hne, if_neg (by simp), if_neg (by simp [hall]), if_pos hany,
      List.getElem?_map, hc]
    rfl
  · intro hnum
    have hall : s.all FlagCell.isFb = false := by
      cases s with
      | nil => simp at hc
      | cons a l =>
        have ha := hnum a (List.mem_cons_self a l)
        cases a <;> simp_all [to_numericCell, FlagCell.isFb]
    have hany : s.any (fun c => (to_numericCell c).isSome) = false := by
      rw [List.any_eq_false]
      intro c hcs
      simp [hnum c hcs]
    unfold normalize_flag
    rw [hne, if_neg (by simp), if_neg (by simp [hall]), if_neg (by simp [hany]),
      List.getElem?_map, hc]
    rfl

/-- Witness for the amended C8 at concrete columns: in a mixed column
the text "Y" becomes 0 through the numeric branch; in a text-only
column " y" strips and upper-cases to a recognized token and becomes 1
while "No" becomes 0; a bool column casts directly. -/
theorem c8_flag_normalization_witness :
    (normalize_flag [FlagCell.fnum 1, FlagCell.ftext "Y"])[1]? = some 0
    ∧ (normalize_flag [FlagCell.ftext " y", FlagCell.ftext "No"])[0]? = some 1
    ∧ (normalize_flag [FlagCell.ftext " y", FlagCell.ftext "No"])[1]? = some 0
    ∧ (normalize_flag [FlagCell.fb true, FlagCell.fb false])[0]? = some 1 := by
  have h1 := (c8_flag_normalization [FlagCell.fnum 1, FlagCell.ftext "Y"] 1
    (FlagCell.ftext "Y") rfl).2.1
  have h2 := (c8_flag_normalization [FlagCell.ftext " y", FlagCell.ftext "No"] 0
    (FlagCell.ftext " y") rfl).2.2
  have h3 := (c8_flag_normalization [FlagCell.ftext " y", FlagCell.ftext "No"] 1
    (FlagCell.ftext "No") rfl).2.2
  have h4 := (c8_flag_normalization [FlagCell.fb true, FlagCell.fb false] 0
    (FlagCell.fb true) rfl).1
  refine ⟨?_, ?_, ?_, ?_⟩
  · exact (h1 (by decide) (by decide)).trans (by decide)
  · exact (h2 (by decide)).trans (by decide)
  · exact (h3 (by decide)).trans (by decide)
  · exact (h4 (by decide)).trans (by decide)

/-! ### Record invariants (claim C10) -/

/-- Non-negativity of the count fields of a Metric Record. -/
def countsNonneg (s : Stats) : Prop :=
  0 ≤ s.flights ∧ 0 ≤ s.arr_delay_count ∧ 0 ≤ s.arr_delay_over_15
    ∧ 0 ≤ s.dep_delay_count ∧ 0 ≤ s.dep_delay_over_15
    ∧ 0 ≤ s.cancelled ∧ 0 ≤ s.diverted

/-- Non-negativity of one partial-aggregate count cell (absent and NaN
cells impose nothing, they are not merged). -/
def gfCntNonneg : GF → Prop
  | .iv n => 0 ≤ n
  | .fv q => 0 ≤ q
  | _ => True

/-- Non-negativity of the count cells of a partial-aggregate row. -/
def prowCountsNonneg (p : PRow) : Prop :=
  0 ≤ p.flights ∧ gfCntNonneg p.arr_delay_count ∧ gfCntNonneg p.arr_delay_over_15
    ∧ gfCntNonneg p.dep_delay_count ∧ gfCntNonneg p.dep_delay_over_15
    ∧ gfCntNonneg p.cancelled ∧ gfCntNonneg p.diverted

theorem pyInt_nonneg (q : ℚ) (h : 0 ≤ q) : 0 ≤ pyInt q := by
  unfold pyInt
  exact Int.tdiv_nonneg (Rat.num_nonneg.mpr h) (Int.natCast_nonneg _)

theorem addCntF_nonneg (v : Int) (g : GF) (hv : 0 ≤ v) (hg : gfCntNonneg g) :
    0 ≤ addCntF v g := by
  cases g with
  | iv n => exact add_nonneg hv hg
  | fv q => exact add_nonneg hv (pyInt_nonneg q hg)
  | absent => exact hv
  | nan => exact hv

theorem applyRow_counts_nonneg (s : Stats) (p : PRow)
    (hs : countsNonneg s) (hp : prowCountsNonneg p) :
    countsNonneg (applyRow s p) := by
  obtain ⟨h1, h2, h3, h4, h5, h6, h7⟩ := hs
  obtain ⟨g1, g2, g3, g4, g5, g6, g7⟩ := hp
  exact ⟨add_nonneg h1 g1, addCntF_nonneg _ _ h2 g2, addCntF_nonneg _ _ h3 g3,
    addCntF_nonneg _ _ h4 g4, addCntF_nonneg _ _ h5 g5, addCntF_nonneg _ _ h6 g6,
    addCntF_nonneg _ _ h7 g7⟩

theorem countsNonneg_new_stats : countsNonneg new_stats := by
  refine ⟨le_refl 0, le_refl 0, le_refl 0, le_refl 0, le_refl 0, le_refl 0, le_refl 0⟩

theorem alook_mem {α β : Type} [DecidableEq α] (l : List (α × β)) (k : α) (v : β)
    (h : alook l k = some v) : (k, v) ∈ l := by
  induction l with
  | nil => exact Option.noConfusion h
  | cons p rest ih =>
    obtain ⟨a, b⟩ := p
    unfold alook at h
    by_cases hk : k = a
    · rw [if_pos hk] at h
      have hv : b = v := Option.some.inj h
      rw [hk, ← hv]
      exact List.mem_cons_self _ _
    · rw [if_neg hk] at h
      exact List.mem_cons_of_mem _ (ih h)

theorem mem_tableInsert (t : Table) (k : Key) (s : Stats) (x : Key × Stats)
    (h : x ∈ tableInsert t k s) : x = (k, s) ∨ x ∈ t := by
  unfold tableInsert at h
  by_cases hp : (alook t k).isSome
  · rw [if_pos hp] at h
    obtain ⟨p, hpmem, hpx⟩ := List.mem_map.mp h
    by_cases hpk : p.1 = k
    · left
      rw [← hpx, if_pos hpk]
    · right
      rw [← hpx, if_neg hpk]
      exact hpmem
  · rw [if_neg hp] at h
    rcases List.mem_append.mp h with h | h
    · right
      exact h
    · left
      simpa using h

theorem update_table_counts_nonneg (t : Table) (g : List (Key × PRow))
    (ht : ∀ ks ∈ t, countsNonneg ks.2) (hg : ∀ kp ∈ g, prowCountsNonneg kp.2) :
    ∀ ks ∈ update_table t g, countsNonneg ks.2 := by
  induction g generalizing t with
  | nil => exact ht
  | cons kp rest ih =>
    have hstep : update_table t (kp :: rest) =
        update_table
          (tableInsert t kp.1 (applyRow ((alook t kp.1).getD new_stats) kp.2)) rest := rfl
    rw [hstep]
    apply ih
    · intro ks hks
      rcases mem_tableInsert _ _ _ _ hks with h | h
      · rw [h]
        apply applyRow_counts_nonneg
        · cases halk : alook t kp.1 with
          | none => simpa [halk] using countsNonneg_new_stats
          | some s0 => simpa [halk] using ht (kp.1, s0) (alook_mem _ _ _ halk)
        · exact hg kp (List.mem_cons_self _ _)
      · exact ht ks h
    · intro kp2 h2
      exact hg kp2 (List.mem_cons_of_mem _ h2)

theorem aggRows_counts_nonneg (m : Meta) (rows : List NRow)
    (h : ∀ r ∈ rows, 0 ≤ r.cancelled ∧ 0 ≤ r.diverted
      ∧ 0 ≤ r.arr_over15 ∧ 0 ≤ r.dep_over15) :
    prowCountsNonneg (aggRows m rows) := by
  refine ⟨Int.natCast_nonneg _, ?_, ?_, ?_, ?_, ?_, ?_⟩
  · by_cases hm : m.hasArr <;>
      simp [aggRows, hm, gfCntNonneg, Int.natCast_nonneg]
  · by_cases hm : m.hasArr <;> simp [aggRows, hm, gfCntNonneg]
    exact List.sum_nonneg (by
      intro x hx
      obtain ⟨r, hr, hrx⟩ := List.mem_map.mp hx
      exact hrx ▸ (h r hr).2.2.1)
  · by_cases hm : m.hasDep <;>
      simp [aggRows, hm, gfCntNonneg, Int.natCast_nonneg]
  · by_cases hm : m.hasDep <;> simp [aggRows, hm, gfCntNonneg]
    exact List.sum_nonneg (by
      intro x hx
      obtain ⟨r, hr, hrx⟩ := List.mem_map.mp hx
      exact hrx ▸ (h r hr).2.2.2)
  · by_cases hm : m.hasCancelled <;> simp [aggRows, hm, gfCntNonneg]
    exact List.sum_nonneg (by
      intro x hx
      obtain ⟨r, hr, hrx⟩ := List.mem_map.mp hx
      exact hrx ▸ (h r hr).1)
  · by_cases hm : m.hasDiverted <;> simp [aggRows, hm, gfCntNonneg]
    exact List.sum_nonneg (by
      intro x hx
      obtain ⟨r, hr, hrx⟩ := List.mem_map.mp hx
      exact hrx ▸ (h r hr).2.1)

/-- The file schema of the C10 counterexample: only the date and the
cancelled flag are present. -/
def c10_meta : Meta :=
  { hasCarrier := false, hasOrigin := false, hasDest := false, hasArr := false,
    hasDep := false, hasCancelled := true, hasDiverted := false,
    hasCauseCarrier := false, hasCauseWeather := false, hasCauseNas := false,
    hasCauseSecurity := false, hasCauseLate := false }

/-- A chunk whose single row carries the numeric cancelled value -1. -/
def c10_chunk : Chunk :=
  { meta := c10_meta
    rows :=
      [{ fl_date := some ⟨2024, 1, 1⟩, carrier := "", origin := "", dest := "",
         arr_delay := none, dep_delay := none,
         cancelled := .fnum (-1), diverted := .fna,
         causes := { cc := none, cw := none, cn := none, cs := none, cl := none } }] }

/-- Counterexample to claim C10 as stated: a run over a file whose
CANCELLED column carries the numeric value -1 produces a stored Metric
Record whose `cancelled` count field is the negative integer -1 — the
pipeline neither clamps nor rejects negative flag encodings, so "every
count field is a non-negative integer at every point of a run" fails. -/
theorem c10_record_invariant_counterexample :
    ((alook (update_table [] (groupbyChunk monthKey (preprocess_chunk c10_chunk)))
        [KeyPart.ym 2024 1]).map Stats.cancelled) = some (-1)
    ∧ ((-1 : Int) < 0) := by
  constructor
  · simp +decide [c10_chunk, c10_meta, update_table, groupbyChunk, groupby,
      preprocess_chunk, kept, cancColumn, divColumn, normalize_flag, boolFlagVal,
      numFlagVal, textFlagVal, pyStripUpper, positiveFlagTokens, mkNRow, zipWith3,
      over15Ind, aggRows, monthKey, alook, tableInsert, applyRow, addSumF, addCntF,
      new_stats, to_numericCell, pyInt, FlagCell.isFb,
      List.dedup_nil, List.dedup_cons_of_mem, List.dedup_cons_of_not_mem]
  · decide

/-- Claim C10 (amended): every stored Metric Record always carries the
full fixed field set (the `Stats` record), initialized with every sum
and count at zero even for metrics whose source column never appears;
the merge skips NaN partial values, leaving the accumulated field
unchanged, so no accumulated field ever becomes NaN; and every count
field remains a non-negative integer provided the merged partials' count
values are non-negative — which the per-batch aggregation guarantees
whenever the normalized flag and indicator values are non-negative (true
for all recognized 0/1 encodings, but violated by negative numeric flag
values, see the counterexample). -/
theorem c10_record_invariant (t : Table) (g : List (Key × PRow))
    (m : Meta) (rows : List NRow) :
    new_stats = Stats.mk 0 0 0 0 0 0 0 0 0 0 0 0 0 0
    ∧ (∀ v : ℚ, addSumF v GF.nan = v)
    ∧ (∀ v : Int, addCntF v GF.nan = v)
    ∧ ((∀ ks ∈ t, countsNonneg ks.2) → (∀ kp ∈ g, prowCountsNonneg kp.2) →
        ∀ ks ∈ update_table t g, countsNonneg ks.2)
    ∧ ((∀ r ∈ rows, 0 ≤ r.cancelled ∧ 0 ≤ r.diverted
          ∧ 0 ≤ r.arr_over15 ∧ 0 ≤ r.dep_over15) →
        prowCountsNonneg (aggRows m rows)) := by
  refine ⟨rfl, fun v => rfl, fun v => rfl, ?_, ?_⟩
  · exact update_table_counts_nonneg t g
  · exact aggRows_counts_nonneg m rows

/-- Witness for the amended C10 at concrete inputs: one merged batch
with non-negative partial counts keeps every stored count
non-negative. -/
theorem c10_record_invariant_witness :
    new_stats.cancelled = 0
    ∧ addSumF 5 GF.nan = 5
    ∧ addCntF 7 GF.nan = 7
    ∧ (∀ ks ∈ update_table [] [([KeyPart.s "K"], aggRows c10_meta [])],
        countsNonneg ks.2) := by
  have h := c10_record_invariant [] [([KeyPart.s "K"], aggRows c10_meta [])]
    c10_meta []
  refine ⟨by rw [h.1], h.2.1 5, h.2.2.1 7, ?_⟩
  apply h.2.2.2.1
  · intro ks hks
    exact absurd hks (List.not_mem_nil ks)
  · intro kp hkp
    rw [List.mem_singleton.mp hkp]
    exact h.2.2.2.2 (by
      intro r hr
      exact absurd hr (List.not_mem_nil r))

end FlightDelay
